import Mathlib

/-!
Shallow embedding of `src/feedback_aggregator.py` (eq-runner-dev-tool
feedback aggregator): a batch script that scans a folder of JSON feedback
files, classifies each one as a business or non-business survey record,
sorts each bucket by submission timestamp and writes one CSV report per
non-empty bucket.

Python values appearing in feedback records are modelled by `JValue`
(objects, strings, numbers, booleans, null), with Python truthiness as
`truthy`.  Exceptions are modelled explicitly: exceptions the script
catches (`KeyError`, `json.JSONDecodeError`) become tagged outcomes, while
exceptions no handler catches (`ValueError`, `TypeError`, `AttributeError`)
become `crash`-style outcomes that terminate the modelled run, exactly as
an uncaught exception terminates the Python process.
-/

/-- A JSON value, as `json.load` produces it. -/
inductive JValue where
  | null : JValue
  | str (s : String) : JValue
  | num (n : Int) : JValue
  | bool (b : Bool) : JValue
  | obj (fields : List (String × JValue)) : JValue

/-- A JSON object: ordered key/value pairs (Python dict keys are unique;
lookup takes the first binding). -/
abbrev JObj := List (String × JValue)

/-- Python `d[k]` / `d.get(k)` on a dict: first binding for `k`, if any. -/
def jlookup (o : JObj) (k : String) : Option JValue :=
  match o with
  | [] => none
  | (k', v) :: rest => if k' = k then some v else jlookup rest k

/-- Python truthiness of a JSON value: `None`, `""`, `0`, `False` and the
empty object are falsy; everything else is truthy. -/
def truthy : JValue → Bool
  | .null => false
  | .str s => s ≠ ""
  | .num n => n ≠ 0
  | .bool b => b
  | .obj fields => !fields.isEmpty

/-- Outcome of Python `k in v`: membership test, whose meaning depends on
the type of `v` (key test on a dict, substring test on a str), and which
raises `TypeError` on values that support no membership test. -/
inductive MemResult where
  | yes : MemResult
  | no : MemResult
  | typeError : MemResult
deriving DecidableEq, Repr

/-- Python `str.lower()`, as the character list of the string. -/
def lowerData (s : String) : List Char := s.data.map Char.toLower

/-- `needle` occurs as a contiguous run inside `hay` (Python `in` on str). -/
def listContains (needle : List Char) : List Char → Bool
  | [] => needle.isEmpty
  | c :: rest => needle.isPrefixOf (c :: rest) || listContains needle rest

/-- Python `k in v` for a JSON value `v`. -/
def jmem (k : String) : JValue → MemResult
  | .obj fields => if fields.any fun p => p.1 = k then .yes else .no
  | .str s => if listContains k.data s.data then .yes else .no
  | _ => .typeError

/-- The two survey categories (`BUSINESS_SURVEY_KEY`,
`NON_BUSINESS_SURVEY_KEY`). -/
inductive SurveyKey where
  | business : SurveyKey
  | nonBusiness : SurveyKey
deriving DecidableEq, Repr

/-- One candidate file from the source folder. `filename` is the basename
(`glob` over one directory yields pairwise distinct basenames);
`content` is `none` when the file is not valid JSON (`read_json_file`
returns `None`), and `some top` for a parsed top-level JSON object. -/
structure InputFile where
  filename : String
  content : Option JObj

/-- The outcome of `process_feedback_file` on one file. -/
inductive ProcessResult where
  /-- filename contains the aggregated-file marker: silently skipped. -/
  | skippedMarker : ProcessResult
  /-- JSON parse failed: warning printed, file skipped. -/
  | skippedInvalidJson : ProcessResult
  /-- `KeyError` (e.g. no `survey_metadata` key) caught: warning, skipped. -/
  | skippedMissingFields : ProcessResult
  /-- an exception no handler catches (`ValueError` from the missing
  qid/ru_ref branch, or `TypeError` from `in`): the process dies. -/
  | uncaught (msg : String) : ProcessResult
  /-- classified: `(filename, data)` is appended to the bucket for `key`. -/
  | classified (key : SurveyKey) (top : JObj) : ProcessResult

/-- `process_feedback_file` (src/feedback_aggregator.py:70-99) for one file,
given the configured aggregated-file marker string `aggMarker`
(`CONFIG.aggregated_file_prefix`). -/
def process_feedback_file (aggMarker : String) (f : InputFile) : ProcessResult :=
  if listContains (lowerData aggMarker) (lowerData f.filename) then
    .skippedMarker
  else
    match f.content with
    | none => .skippedInvalidJson
    | some top =>
      match jlookup top "survey_metadata" with
      | none => .skippedMissingFields
      | some sm =>
        match jmem "qid" sm with
        | .typeError => .uncaught "TypeError"
        | .yes => .classified .nonBusiness top
        | .no =>
          match jmem "ru_ref" sm with
          | .typeError => .uncaught "TypeError"
          | .yes => .classified .business top
          | .no => .uncaught ("Missing qid or ru_ref in " ++ f.filename)

/-- The accumulator `FEEDBACK_BY_SURVEY_TYPE`: one bucket of
`(filename, parsed record)` pairs per survey category. -/
structure Buckets where
  business : List (String × JObj)
  nonBusiness : List (String × JObj)

/-- Append a classified record to its bucket. -/
def Buckets.push (b : Buckets) (key : SurveyKey) (fn : String) (top : JObj) : Buckets :=
  match key with
  | .business => { b with business := b.business ++ [(fn, top)] }
  | .nonBusiness => { b with nonBusiness := b.nonBusiness ++ [(fn, top)] }

/-- The scanning loop of `aggregate_feedback` (lines 181-184): process each
file in order.  Returns the buckets at termination together with `some msg`
when an uncaught exception aborted the run there (later files unprocessed),
or `none` when every file was processed. -/
def runScan (aggMarker : String) (files : List InputFile) (b : Buckets) :
    Buckets × Option String :=
  match files with
  | [] => (b, none)
  | f :: rest =>
    match process_feedback_file aggMarker f with
    | .classified key top => runScan aggMarker rest (b.push key f.filename top)
    | .uncaught msg => (b, some msg)
    | _ => runScan aggMarker rest b

/-- One entry of `CONFIG.output_fields`: `name` is a string or a list of
candidate names (`Union[str, list[str]]`). -/
inductive FieldName where
  | single (s : String) : FieldName
  | multi (ss : List String) : FieldName

/-- `OutputField` dataclass (lines 35-38): a name or candidate-name list
plus a default value, which defaults to the empty string. -/
structure OutputField where
  name : FieldName
  default_value : String := ""

/-- The candidate-name list of a field spec
(`[output_field.name] if isinstance(output_field.name, str) else
output_field.name`, lines 107-109). -/
def OutputField.keys (of : OutputField) : List String :=
  match of.name with
  | .single s => [s]
  | .multi ss => ss

/-- Errors raised inside field resolution. `keyError` is the `KeyError`
that `write_to_csv` catches per row; `typeError` and `attrError` stand for
the uncaught `TypeError` (`k in None`, joining a non-str) and
`AttributeError` (`.get`/`.replace` on a non-dict/non-str) that kill the
process. -/
inductive ResolveError where
  | keyError (msg : String) : ResolveError
  | typeError : ResolveError
  | attrError : ResolveError

/-- Python `str.replace` for a single-character needle. -/
def replaceChar (c : Char) (rep : List Char) : List Char → List Char
  | [] => []
  | x :: rest =>
    if x = c then rep ++ replaceChar c rep rest
    else x :: replaceChar c rep rest

/-- Python `str.strip()`: whitespace removed from both ends. -/
def stripChars (cs : List Char) : List Char :=
  ((cs.dropWhile Char.isWhitespace).reverse.dropWhile Char.isWhitespace).reverse

/-- `value.replace("\n"," ").replace("\r"," ").replace('"','""').strip()`
(lines 125-130). -/
def sanitizeFeedbackText (s : String) : String :=
  ⟨stripChars (replaceChar '\x22' ['\x22', '\x22']
    (replaceChar '\r' [' '] (replaceChar '\n' [' '] s.data)))⟩

/-- One lookup of `key` through the three-tier precedence of lines 116-121:
`survey_metadata` if it contains `key`, else `data` if it contains `key`,
else `feedback.get(key)` on the record's top level. -/
def lookupValue (top : JObj) (sm dat : JValue) (key : String) :
    Except ResolveError (Option JValue) :=
  match jmem key sm with
  | .typeError => .error .typeError
  | .yes =>
    match sm with
    | .obj o => .ok (jlookup o key)
    | _ => .error .attrError
  | .no =>
    match jmem key dat with
    | .typeError => .error .typeError
    | .yes =>
      match dat with
      | .obj o => .ok (jlookup o key)
      | _ => .error .attrError
    | .no => .ok (jlookup top key)

/-- How the candidate loop of lines 111-134 ended. -/
inductive LoopOut where
  /-- `return ""` on the `EMPTY_COLUMN` sentinel (lines 113-114). -/
  | earlyEmpty : LoopOut
  /-- `break` on a truthy value `w` (already sanitized when its key was
  `feedback_text`), lines 123-134. -/
  | broke (w : JValue) : LoopOut
  /-- the candidates ran out; `value` is the variable's final contents. -/
  | fell (value : Option JValue) : LoopOut

/-- The candidate loop (lines 111-134): walk `keys`, overwriting `value`
each iteration; `EMPTY_COLUMN` returns `""` at once; a truthy value breaks,
after sanitization when its key is exactly `feedback_text`. -/
def resolveLoop (top : JObj) (sm dat : JValue) (value : Option JValue) :
    List String → Except ResolveError LoopOut
  | [] => .ok (.fell value)
  | key :: rest =>
    if key = "EMPTY_COLUMN" then .ok .earlyEmpty
    else
      match lookupValue top sm dat key with
      | .error e => .error e
      | .ok v =>
        match v with
        | some w =>
          if truthy w then
            if key = "feedback_text" then
              match w with
              | .str s =>
                .ok (.broke (.str ("\x22" ++ sanitizeFeedbackText s ++ "\x22")))
              | _ => .error .attrError
            else .ok (.broke w)
          else resolveLoop top sm dat (some w) rest
        | none => resolveLoop top sm dat none rest

/-- Truthiness of the loop variable after the loop (`not value`). -/
def optTruthy : Option JValue → Bool
  | none => false
  | some w => truthy w

/-- `value or output_field.default_value or "No value provided"`
(line 141). -/
def pyOrChain (value : Option JValue) (dflt : String) : JValue :=
  match value with
  | some w =>
    if truthy w then w
    else if dflt ≠ "" then .str dflt else .str "No value provided"
  | none => if dflt ≠ "" then .str dflt else .str "No value provided"

/-- The code after the loop (lines 136-141): raise `KeyError` when the loop
variable holds no truthy value and the default is empty, else return the
`or`-chain of line 141. -/
def finishValue (value : Option JValue) (dflt : String) :
    Except ResolveError JValue :=
  if !optTruthy value && dflt = "" then
    .error (.keyError "Could not find value for field in feedback and no default value was specified.")
  else .ok (pyOrChain value dflt)

/-- Route each loop outcome into the code after the loop (the `break` of
line 134 and normal loop exit join at line 136; `EMPTY_COLUMN` returned
directly at line 114). -/
def afterLoop (out : LoopOut) (dflt : String) : Except ResolveError JValue :=
  match out with
  | .earlyEmpty => .ok (.str "")
  | .broke w => finishValue (some w) dflt
  | .fell value => finishValue value dflt

/-- Candidate loop followed by the post-loop code, as one function. -/
def runLoopFinish (top : JObj) (sm dat : JValue) (value : Option JValue)
    (keys : List String) (dflt : String) : Except ResolveError JValue :=
  match resolveLoop top sm dat value keys with
  | .error e => .error e
  | .ok out => afterLoop out dflt

/-- `get_value_for_output_field_from_feedback` (lines 102-141): fetch
`survey_metadata` and `data` (a missing key raises `KeyError`), then run
the candidate loop and the post-loop code. -/
def get_value_for_output_field_from_feedback (fb : JObj) (of : OutputField) :
    Except ResolveError JValue :=
  match jlookup fb "survey_metadata" with
  | none => .error (.keyError "survey_metadata")
  | some sm =>
    match jlookup fb "data" with
    | none => .error (.keyError "data")
    | some dat => runLoopFinish fb sm dat none of.keys of.default_value

/-- Resolve every configured output field of a record, in order, stopping
at the first error (the generator inside `",".join(...)`, lines 152-157). -/
def resolveFields (fields : List OutputField) (fb : JObj) :
    Except ResolveError (List JValue) :=
  match fields with
  | [] => .ok []
  | of :: rest =>
    match get_value_for_output_field_from_feedback fb of with
    | .error e => .error e
    | .ok v =>
      match resolveFields rest fb with
      | .error e => .error e
      | .ok vs => .ok (v :: vs)

/-- `str.join` accepts only strings; a non-str item raises `TypeError`. -/
def allStrs : List JValue → Option (List String)
  | [] => some []
  | .str s :: rest => (allStrs rest).map (s :: ·)
  | _ => none

/-- `sep.join(items)` (Python `str.join`). -/
def joinWith (sep : String) : List String → String
  | [] => ""
  | [s] => s
  | s :: rest => s ++ sep ++ joinWith sep rest

/-- Outcome of `write_to_csv` for one record. -/
inductive RowOutcome where
  /-- an exception `except KeyError` does not catch: the process dies. -/
  | crashed : RowOutcome
  /-- `KeyError` caught: warning printed, row skipped, returns `False`. -/
  | skipped : RowOutcome
  /-- the line written to the file; returns `True`. -/
  | written (line : String) : RowOutcome

/-- `write_to_csv` (lines 144-168): resolve all fields, join with commas and
write `f"{earliest_submission_formatted},{output_string},{filename}\n"`
(the newline is left off the modelled line).  Only `KeyError` is caught. -/
def write_to_csv (fields : List OutputField) (earliestFmt : String)
    (fb : JObj) (filename : String) : RowOutcome :=
  match resolveFields fields fb with
  | .error (.keyError _) => .skipped
  | .error _ => .crashed
  | .ok vals =>
    match allStrs vals with
    | none => .crashed
    | some strs =>
      .written (earliestFmt ++ "," ++ joinWith "," strs ++ "," ++ filename)

/-- A naive (timezone-free) datetime, the result of
`datetime.fromisoformat`. -/
structure DateTime where
  year : Nat
  month : Nat
  day : Nat
  hour : Nat
  minute : Nat
  second : Nat
deriving DecidableEq, Repr

/-- Decimal digit value of a character, if it is a digit. -/
def charDigit? (c : Char) : Option Nat :=
  if c.isDigit then some (c.toNat - 48) else none

/-- Python `int(...)` on a run of characters: every character must be a
digit and the run non-empty. -/
def digitsVal : List Char → Option Nat
  | [] => none
  | cs => go cs 0
where
  go : List Char → Nat → Option Nat
    | [], acc => some acc
    | c :: rest, acc =>
      match charDigit? c with
      | none => none
      | some d => go rest (acc * 10 + d)

/-- `datetime.fromisoformat` on the formats the feedback files use:
`YYYY-MM-DD` or `YYYY-MM-DDTHH:MM:SS`, with the field-range validation the
Python parser performs (`none` models the `ValueError` it raises;
day-of-month validity per month is not modelled). -/
def parseIso (s : String) : Option DateTime := do
  let cs := s.data
  let y ← digitsVal (cs.take 4)
  guard ((cs.drop 4).take 1 = ['-'])
  let mo ← digitsVal ((cs.drop 5).take 2)
  guard ((cs.drop 7).take 1 = ['-'])
  let d ← digitsVal ((cs.drop 8).take 2)
  guard (1 ≤ mo && mo ≤ 12 && 1 ≤ d && d ≤ 31)
  if cs.length = 10 then
    pure ⟨y, mo, d, 0, 0, 0⟩
  else do
    guard ((cs.drop 10).take 1 = ['T'])
    let h ← digitsVal ((cs.drop 11).take 2)
    guard ((cs.drop 13).take 1 = [':'])
    let mi ← digitsVal ((cs.drop 14).take 2)
    guard ((cs.drop 16).take 1 = [':'])
    let sec ← digitsVal ((cs.drop 17).take 2)
    guard (cs.length = 19 && h ≤ 23 && mi ≤ 59 && sec ≤ 59)
    pure ⟨y, mo, d, h, mi, sec⟩

/-- Chronological key: datetimes compare lexicographically by
(year, month, day, hour, minute, second); with every component below 100
except the year, this scalar key realises that order. -/
def DateTime.key (dt : DateTime) : Nat :=
  dt.year * 10000000000 + dt.month * 100000000 + dt.day * 1000000 +
    dt.hour * 10000 + dt.minute * 100 + dt.second

/-- Digit character for a value below ten. -/
def digitChar (n : Nat) : Char :=
  match n with
  | 0 => '0' | 1 => '1' | 2 => '2' | 3 => '3' | 4 => '4'
  | 5 => '5' | 6 => '6' | 7 => '7' | 8 => '8' | _ => '9'

/-- Decimal digits of `n` (fuel-driven so that it reduces definitionally;
the fuel `n + 1` always suffices). -/
def natDigitsAux : Nat → Nat → List Char
  | 0, _ => []
  | fuel + 1, n =>
    if n < 10 then [digitChar n]
    else natDigitsAux fuel (n / 10) ++ [digitChar (n % 10)]

/-- Decimal rendering of a natural number. -/
def natToStr (n : Nat) : String := ⟨natDigitsAux (n + 1) n⟩

/-- Two-digit zero padding (strftime `%d`, `%m`, and friends). -/
def pad2 (n : Nat) : String :=
  if n < 10 then "0" ++ natToStr n else natToStr n

/-- Four-digit zero padding (strftime `%Y`). -/
def pad4 (n : Nat) : String :=
  if n < 10 then "000" ++ natToStr n
  else if n < 100 then "00" ++ natToStr n
  else if n < 1000 then "0" ++ natToStr n
  else natToStr n

/-- strftime `%b`: abbreviated month name. -/
def monthAbbrev : Nat → String
  | 1 => "Jan" | 2 => "Feb" | 3 => "Mar" | 4 => "Apr"
  | 5 => "May" | 6 => "Jun" | 7 => "Jul" | 8 => "Aug"
  | 9 => "Sep" | 10 => "Oct" | 11 => "Nov" | 12 => "Dec"
  | _ => ""

/-- `strftime("%b %d %Y")` (line 204). -/
def DateTime.fmtHuman (dt : DateTime) : String :=
  monthAbbrev dt.month ++ " " ++ pad2 dt.day ++ " " ++ pad4 dt.year

/-- `strftime("%Y-%m-%d")` (line 205). -/
def DateTime.fmtYmd (dt : DateTime) : String :=
  pad4 dt.year ++ "-" ++ pad2 dt.month ++ "-" ++ pad2 dt.day

/-- Python `str.title()`: a letter starts upper-case after any non-letter
and lower-case after a letter ("non-business" becomes "Non-Business"). -/
def titleGo : List Char → Bool → List Char
  | [], _ => []
  | c :: rest, prevAlpha =>
    if c.isAlpha then
      (if prevAlpha then c.toLower else c.toUpper) :: titleGo rest true
    else c :: titleGo rest false

/-- Python `str.title()`. -/
def titleCase (s : String) : String := ⟨titleGo s.data false⟩

/-- `datetime.fromisoformat(x[1]["submitted_at"])` (line 200): `none`
models the uncaught `KeyError`/`TypeError`/`ValueError` when the key is
absent, not a string, or unparseable. -/
def parseTs (top : JObj) : Option DateTime :=
  match jlookup top "submitted_at" with
  | some (.str s) => parseIso s
  | _ => none

/-- Sort key of one `(filename, record)` pair (0 when unparseable; such
records make `processCategory` return `none` before the key is used). -/
def tsKey (r : String × JObj) : Nat :=
  ((parseTs r.2).map DateTime.key).getD 0

/-- The `Config` dataclass (lines 41-60), minus the on-disk source-folder
existence check. `aggMarker` embeds the `aggregated_file_prefix` entry. -/
structure Config where
  aggMarker : String
  source_folder : String
  output_fields : List OutputField

/-- What one iteration of the category loop of `aggregate_feedback`
(lines 194-230) produces for a non-empty category. -/
structure CategoryReport where
  output_filename : String
  sortedRecords : List (String × JObj)
  writtenRecords : List (String × JObj)
  lines : List String
  passed : Nat

/-- The row loop of lines 218-224: write each sorted record, collecting the
records and lines actually written; `none` models a row whose uncaught
exception kills the process. -/
def writeLoop (fields : List OutputField) (earliestFmt : String) :
    List (String × JObj) → Option (List ((String × JObj) × String))
  | [] => some []
  | (fn, fb) :: rest =>
    match write_to_csv fields earliestFmt fb fn with
    | .crashed => none
    | .skipped => writeLoop fields earliestFmt rest
    | .written line => (writeLoop fields earliestFmt rest).map (((fn, fb), line) :: ·)

/-- The comparison `sorted` performs on two records: their parsed
`submitted_at` keys compare. -/
def tsLe (a b : String × JObj) : Prop := tsKey a ≤ tsKey b

instance : DecidableRel tsLe := fun a b => Nat.decLe (tsKey a) (tsKey b)

instance : IsTotal (String × JObj) tsLe := ⟨fun a b => Nat.le_total (tsKey a) (tsKey b)⟩

instance : IsTrans (String × JObj) tsLe :=
  ⟨fun _ _ _ h1 h2 => Nat.le_trans h1 h2⟩

/-- `sorted(feedback_data, key=lambda x: datetime.fromisoformat(
x[1]["submitted_at"]))` (lines 199-201).  Python `sorted` is a stable sort,
and a stable sort's output is uniquely determined by the comparison, so
stable insertion sort computes the same list Timsort does. -/
def sortRecords (records : List (String × JObj)) : List (String × JObj) :=
  List.insertionSort tsLe records

/-- The whole string `f"- {...}-{survey_type.title()}-Surveys-{...}.csv"`
of lines 208-211. -/
def outputFilename (aggMarker surveyType : String) (dt : DateTime) : String :=
  "- " ++ aggMarker ++ "-" ++ titleCase surveyType ++ "-Surveys-" ++
    DateTime.fmtYmd dt ++ ".csv"

/-- One category iteration of `aggregate_feedback` (lines 194-230): sort by
parsed `submitted_at`, derive both date formats from the earliest record,
build the output filename, and run the row loop. `none` covers the empty
category (skipped by the caller at line 195) and every uncaught
exception. -/
def processCategory (cfg : Config) (surveyType : String)
    (records : List (String × JObj)) : Option CategoryReport :=
  match records with
  | [] => none
  | r0 :: rs =>
    if (r0 :: rs).all fun r => (parseTs r.2).isSome then
      match (sortRecords (r0 :: rs)).head? with
      | none => none
      | some first =>
        match parseTs first.2 with
        | none => none
        | some dt =>
          match writeLoop cfg.output_fields (DateTime.fmtHuman dt)
              (sortRecords (r0 :: rs)) with
          | none => none
          | some written =>
            some { output_filename := outputFilename cfg.aggMarker surveyType dt
                   sortedRecords := sortRecords (r0 :: rs)
                   writtenRecords := written.map fun p => p.1
                   lines := written.map fun p => p.2
                   passed := written.length }
    else none

/-- `write_to_csv` returns `True` for this record: every field resolves and
every resolved value is a string. -/
def rowWritten (fields : List OutputField) (fb : JObj) : Bool :=
  match resolveFields fields fb with
  | .ok vals => (allStrs vals).isSome
  | .error _ => false

/-! ## Concrete demonstration inputs -/

/-- A parsed file whose `survey_metadata` is present but holds neither
`qid` nor `ru_ref`. -/
def fileNoId : InputFile := ⟨"no_id.json", some [("survey_metadata", .obj [])]⟩

/-- A perfectly valid non-business feedback file. -/
def fileValidQid : InputFile :=
  ⟨"valid_qid.json", some [("survey_metadata", .obj [("qid", .str "q1")])]⟩

/-- A previously produced aggregate output sitting in the source folder. -/
def fileAggregate : InputFile :=
  ⟨"- Feedback-Business-Surveys-2024-01-01.csv", none⟩

/-- A record carrying both `qid` and `ru_ref`. -/
def topBoth : JObj :=
  [("survey_metadata", .obj [("qid", .str "q9"), ("ru_ref", .str "r9")])]

/-- A record carrying `ru_ref` only. -/
def topRu : JObj := [("survey_metadata", .obj [("ru_ref", .str "r1")])]

/-- The file holding `topBoth`. -/
def fileBoth : InputFile := ⟨"both.json", some topBoth⟩

/-- The file holding `topRu`. -/
def fileRu : InputFile := ⟨"ru.json", some topRu⟩

/-- A file that is not valid JSON. -/
def fileBadJson : InputFile := ⟨"bad.json", none⟩

/-- A crash-free demonstration folder. -/
def demoFiles : List InputFile := [fileValidQid, fileRu, fileBoth, fileBadJson]

/-- A business record with no `period_id` anywhere. -/
def fbRuOnly : JObj :=
  [("survey_metadata", .obj [("ru_ref", .str "12345")]),
   ("data", .obj []),
   ("submitted_at", .str "2024-01-01T09:00:00")]

/-- A record whose `data` carries a messy `feedback_text` and a quoted but
ordinary `other_field`. -/
def fbFeedback : JObj :=
  [("survey_metadata", .obj [("qid", .str "q")]),
   ("data", .obj [("feedback_text", .str "  he said \x22hi\x22\nbye "),
                  ("other_field", .str "plain\x22txt")])]

/-- A record where `form_type` is falsy in `survey_metadata` but truthy in
`data`. -/
def fbShadow : JObj :=
  [("survey_metadata", .obj [("form_type", .str ""), ("ru_ref", .str "R")]),
   ("data", .obj [("form_type", .str "H")])]

/-- The demonstration configuration: a single `period_id` column with an
empty default. -/
def cfgDemo : Config := ⟨"Feedback", "source_files", [⟨.single "period_id", ""⟩]⟩

/-- Earliest record of the demonstration bucket; it has no `period_id`,
so its row is skipped at write time. -/
def rEarlyRec : String × JObj := ("e.json", fbRuOnly)

/-- A later record carrying `period_id`, so its row is written. -/
def rLateRec : String × JObj :=
  ("l.json",
   [("survey_metadata", .obj [("ru_ref", .str "67890"), ("period_id", .str "2024")]),
    ("data", .obj []),
    ("submitted_at", .str "2024-01-05T10:00:00")])

/-- A middle record carrying `period_id`, submitted between the two. -/
def rMidRec : String × JObj :=
  ("m.json",
   [("survey_metadata", .obj [("ru_ref", .str "11111"), ("period_id", .str "P2")]),
    ("data", .obj []),
    ("submitted_at", .str "2024-01-03T00:00:00")])

/-- The report the demonstration category `[rLateRec, rMidRec]` produces
(both rows written, sorted by timestamp). -/
def repC3 : CategoryReport :=
  { output_filename := "- Feedback-Business-Surveys-2024-01-03.csv"
    sortedRecords := [rMidRec, rLateRec]
    writtenRecords := [rMidRec, rLateRec]
    lines := ["Jan 03 2024,P2,m.json", "Jan 03 2024,2024,l.json"]
    passed := 2 }

/-- The report the demonstration category `[rLateRec, rEarlyRec]`
produces (the earliest row is skipped for its missing `period_id`). -/
def repC5 : CategoryReport :=
  { output_filename := "- Feedback-Business-Surveys-2024-01-01.csv"
    sortedRecords := [rEarlyRec, rLateRec]
    writtenRecords := [rLateRec]
    lines := ["Jan 01 2024,2024,l.json"]
    passed := 1 }

/-! ## Characterization of the scanning loop -/

/-- The business-bucket entries the scan of `files` appends (nothing past
an uncaught exception). -/
def scanBusiness (m : String) : List InputFile → List (String × JObj)
  | [] => []
  | f :: rest =>
    match process_feedback_file m f with
    | .classified .business top => (f.filename, top) :: scanBusiness m rest
    | .classified .nonBusiness _ => scanBusiness m rest
    | .uncaught _ => []
    | _ => scanBusiness m rest

/-- The non-business-bucket entries the scan of `files` appends. -/
def scanNonBusiness (m : String) : List InputFile → List (String × JObj)
  | [] => []
  | f :: rest =>
    match process_feedback_file m f with
    | .classified .nonBusiness top => (f.filename, top) :: scanNonBusiness m rest
    | .classified .business _ => scanNonBusiness m rest
    | .uncaught _ => []
    | _ => scanNonBusiness m rest

/-- The first uncaught exception the scan of `files` hits, if any. -/
def scanCrash (m : String) : List InputFile → Option String
  | [] => none
  | f :: rest =>
    match process_feedback_file m f with
    | .uncaught msg => some msg
    | _ => scanCrash m rest

theorem runScan_eq (m : String) (files : List InputFile) :
    ∀ b : Buckets, runScan m files b =
      (⟨b.business ++ scanBusiness m files,
        b.nonBusiness ++ scanNonBusiness m files⟩, scanCrash m files) := by
  induction files with
  | nil => intro b; simp [runScan, scanBusiness, scanNonBusiness, scanCrash]
  | cons f rest ih =>
    intro b
    cases hpf : process_feedback_file m f with
    | classified key top =>
      cases key <;>
        simp [runScan, scanBusiness, scanNonBusiness, scanCrash, hpf,
          Buckets.push, ih]
    | uncaught msg =>
      simp [runScan, scanBusiness, scanNonBusiness, scanCrash, hpf]
    | skippedMarker =>
      simp [runScan, scanBusiness, scanNonBusiness, scanCrash, hpf, ih]
    | skippedInvalidJson =>
      simp [runScan, scanBusiness, scanNonBusiness, scanCrash, hpf, ih]
    | skippedMissingFields =>
      simp [runScan, scanBusiness, scanNonBusiness, scanCrash, hpf, ih]

/-- Inversion of `process_feedback_file` on a classified outcome. -/
theorem classified_inv (m : String) (f : InputFile) (key : SurveyKey)
    (top : JObj) (h : process_feedback_file m f = .classified key top) :
    f.content = some top ∧
    listContains (lowerData m) (lowerData f.filename) = false ∧
    ∃ sm, jlookup top "survey_metadata" = some sm ∧
      ((key = .nonBusiness ∧ jmem "qid" sm = .yes) ∨
       (key = .business ∧ jmem "qid" sm = .no ∧ jmem "ru_ref" sm = .yes)) := by
  unfold process_feedback_file at h
  split at h
  · exact absurd h (by simp)
  · rename_i hmark
    split at h
    · exact absurd h (by simp)
    · rename_i t hc
      split at h
      · exact absurd h (by simp)
      · rename_i sm hsm
        split at h
        · exact absurd h (by simp)
        · rename_i hq
          obtain ⟨hk, ht⟩ := ProcessResult.classified.inj h
          subst hk; subst ht
          exact ⟨hc, by simpa using hmark, sm, hsm, .inl ⟨rfl, hq⟩⟩
        · rename_i hq
          split at h
          · exact absurd h (by simp)
          · rename_i hr
            obtain ⟨hk, ht⟩ := ProcessResult.classified.inj h
            subst hk; subst ht
            exact ⟨hc, by simpa using hmark, sm, hsm, .inr ⟨rfl, hq, hr⟩⟩
          · exact absurd h (by simp)

/-- Every business-bucket entry comes from a file the scan classified as
business. -/
theorem mem_scanBusiness (m : String) (files : List InputFile)
    (p : String × JObj) (hp : p ∈ scanBusiness m files) :
    ∃ f ∈ files, process_feedback_file m f = .classified .business p.2 ∧
      p.1 = f.filename := by
  induction files with
  | nil => simp [scanBusiness] at hp
  | cons f rest ih =>
    unfold scanBusiness at hp
    split at hp
    · rename_i top hpf
      rcases List.mem_cons.1 hp with h | h
      · subst h; exact ⟨f, List.mem_cons_self .., hpf, rfl⟩
      · obtain ⟨g, hg, h1, h2⟩ := ih h
        exact ⟨g, List.mem_cons_of_mem _ hg, h1, h2⟩
    · obtain ⟨g, hg, h1, h2⟩ := ih hp
      exact ⟨g, List.mem_cons_of_mem _ hg, h1, h2⟩
    · simp at hp
    · obtain ⟨g, hg, h1, h2⟩ := ih hp
      exact ⟨g, List.mem_cons_of_mem _ hg, h1, h2⟩

/-- Every non-business-bucket entry comes from a file the scan classified
as non-business. -/
theorem mem_scanNonBusiness (m : String) (files : List InputFile)
    (p : String × JObj) (hp : p ∈ scanNonBusiness m files) :
    ∃ f ∈ files, process_feedback_file m f = .classified .nonBusiness p.2 ∧
      p.1 = f.filename := by
  induction files with
  | nil => simp [scanNonBusiness] at hp
  | cons f rest ih =>
    unfold scanNonBusiness at hp
    split at hp
    · rename_i top hpf
      rcases List.mem_cons.1 hp with h | h
      · subst h; exact ⟨f, List.mem_cons_self .., hpf, rfl⟩
      · obtain ⟨g, hg, h1, h2⟩ := ih h
        exact ⟨g, List.mem_cons_of_mem _ hg, h1, h2⟩
    · obtain ⟨g, hg, h1, h2⟩ := ih hp
      exact ⟨g, List.mem_cons_of_mem _ hg, h1, h2⟩
    · simp at hp
    · obtain ⟨g, hg, h1, h2⟩ := ih hp
      exact ⟨g, List.mem_cons_of_mem _ hg, h1, h2⟩

/-- When the scan finishes without an uncaught exception, every classified
file's `(filename, record)` pair lands in the matching bucket list. -/
theorem classified_mem_scan (m : String) (files : List InputFile)
    (f : InputFile) (key : SurveyKey) (top : JObj)
    (hf : f ∈ files) (hc : process_feedback_file m f = .classified key top)
    (hnc : scanCrash m files = none) :
    (key = .business → (f.filename, top) ∈ scanBusiness m files) ∧
    (key = .nonBusiness → (f.filename, top) ∈ scanNonBusiness m files) := by
  induction files with
  | nil => simp at hf
  | cons g rest ih =>
    rcases List.mem_cons.1 hf with h | h
    · subst h
      cases key with
      | business =>
        refine ⟨fun _ => ?_, fun hk => by simp at hk⟩
        unfold scanBusiness
        rw [hc]
        exact List.mem_cons_self ..
      | nonBusiness =>
        refine ⟨fun hk => by simp at hk, fun _ => ?_⟩
        unfold scanNonBusiness
        rw [hc]
        exact List.mem_cons_self ..
    · have hnc' : scanCrash m rest = none := by
        unfold scanCrash at hnc
        split at hnc
        · exact absurd hnc (by simp)
        · exact hnc
      obtain ⟨h1, h2⟩ := ih h hnc'
      constructor
      · intro hk
        unfold scanBusiness
        cases hpg : process_feedback_file m g with
        | classified kg tg =>
          cases kg with
          | business => exact List.mem_cons_of_mem _ (h1 hk)
          | nonBusiness => simpa [hpg] using h1 hk
        | uncaught msg => unfold scanCrash at hnc; rw [hpg] at hnc; simp at hnc
        | skippedMarker => simpa [hpg] using h1 hk
        | skippedInvalidJson => simpa [hpg] using h1 hk
        | skippedMissingFields => simpa [hpg] using h1 hk
      · intro hk
        unfold scanNonBusiness
        cases hpg : process_feedback_file m g with
        | classified kg tg =>
          cases kg with
          | nonBusiness => exact List.mem_cons_of_mem _ (h2 hk)
          | business => simpa [hpg] using h2 hk
        | uncaught msg => unfold scanCrash at hnc; rw [hpg] at hnc; simp at hnc
        | skippedMarker => simpa [hpg] using h2 hk
        | skippedInvalidJson => simpa [hpg] using h2 hk
        | skippedMissingFields => simpa [hpg] using h2 hk

/-- C1: a file that parses as JSON and whose `survey_metadata` is present
but holds neither `qid` nor `ru_ref` does NOT produce a recoverable
warning-and-skip: `process_feedback_file` raises
`ValueError(f"Missing qid or ru_ref in {feedback_file}")` inside a `try`
whose only handler is `except KeyError`, so the exception escapes and the
run terminates.  Concretely, scanning `[fileNoId, fileValidQid]` dies at
the first file: the valid second file is never processed and both buckets
stay empty, where the claim requires a warning, a skip and a continued
run. -/
theorem claim_C1_missing_id_kills_run :
    process_feedback_file "Feedback" fileNoId =
      .uncaught "Missing qid or ru_ref in no_id.json" ∧
    runScan "Feedback" [fileNoId, fileValidQid] ⟨[], []⟩ =
      (⟨[], []⟩, some "Missing qid or ru_ref in no_id.json") := by
  constructor <;> rfl

/-- C9: any entry whose filename contains the configured aggregated-file
marker string case-insensitively is excluded from processing: it is
skipped outright, and a scan over a file list containing it produces
exactly the buckets and crash status of the scan without it. -/
theorem claim_C9_marker_files_excluded (m : String) (f : InputFile)
    (files₁ files₂ : List InputFile) (b : Buckets)
    (h : listContains (lowerData m) (lowerData f.filename) = true) :
    process_feedback_file m f = .skippedMarker ∧
    runScan m (files₁ ++ f :: files₂) b = runScan m (files₁ ++ files₂) b := by
  have hpf : process_feedback_file m f = .skippedMarker := by
    unfold process_feedback_file
    rw [h]
    rfl
  refine ⟨hpf, ?_⟩
  induction files₁ generalizing b with
  | nil =>
    simp only [List.nil_append]
    conv => lhs; rw [runScan]
    rw [hpf]
  | cons g gs ih =>
    simp only [List.cons_append]
    rw [runScan, runScan]
    cases hpg : process_feedback_file m g with
    | classified key top => exact ih (b.push key g.filename top)
    | uncaught msg => rfl
    | skippedMarker => exact ih b
    | skippedInvalidJson => exact ih b
    | skippedMissingFields => exact ih b

/-- C9 witness: re-running over a folder holding a prior aggregate output
(`fileAggregate`, whose name contains the marker `Feedback`) does not
reprocess it. -/
theorem claim_C9_witness :
    process_feedback_file "Feedback" fileAggregate = .skippedMarker ∧
    runScan "Feedback" ([] ++ fileAggregate :: [fileValidQid]) ⟨[], []⟩ =
      runScan "Feedback" ([] ++ [fileValidQid]) ⟨[], []⟩ :=
  claim_C9_marker_files_excluded "Feedback" fileAggregate [] [fileValidQid]
    ⟨[], []⟩ (by rfl)

/-- C2: bucket invariants and partition.  (a) every business-bucket record
has `ru_ref` (and no `qid`) in its `survey_metadata`; (b) every
non-business-bucket record has `qid`; (c) on a run with no uncaught
exception, every parsed, non-marker file whose `survey_metadata` holds
`qid` lands in the non-business bucket only (`qid` checked first, so a
record with both keys goes there), and one with `ru_ref` but no `qid`
lands in the business bucket only; (d) a file that fails JSON parsing,
raises the caught `KeyError`, or raises an uncaught exception contributes
to neither bucket. -/
theorem claim_C2_bucket_partition (m : String) (files : List InputFile)
    (hnd : (files.map InputFile.filename).Nodup) :
    (∀ p ∈ (runScan m files ⟨[], []⟩).1.business,
      ∃ sm, jlookup p.2 "survey_metadata" = some sm ∧
        jmem "ru_ref" sm = .yes ∧ jmem "qid" sm = .no) ∧
    (∀ p ∈ (runScan m files ⟨[], []⟩).1.nonBusiness,
      ∃ sm, jlookup p.2 "survey_metadata" = some sm ∧ jmem "qid" sm = .yes) ∧
    ((runScan m files ⟨[], []⟩).2 = none →
      ∀ f ∈ files, ∀ top, f.content = some top →
        listContains (lowerData m) (lowerData f.filename) = false →
        ∀ sm, jlookup top "survey_metadata" = some sm →
          ((jmem "qid" sm = .yes →
             (f.filename, top) ∈ (runScan m files ⟨[], []⟩).1.nonBusiness ∧
             (f.filename, top) ∉ (runScan m files ⟨[], []⟩).1.business) ∧
           (jmem "qid" sm = .no → jmem "ru_ref" sm = .yes →
             (f.filename, top) ∈ (runScan m files ⟨[], []⟩).1.business ∧
             (f.filename, top) ∉ (runScan m files ⟨[], []⟩).1.nonBusiness))) ∧
    (∀ f ∈ files,
      (process_feedback_file m f = .skippedInvalidJson ∨
       process_feedback_file m f = .skippedMissingFields ∨
       ∃ msg, process_feedback_file m f = .uncaught msg) →
      ∀ top, (f.filename, top) ∉ (runScan m files ⟨[], []⟩).1.business ∧
        (f.filename, top) ∉ (runScan m files ⟨[], []⟩).1.nonBusiness) := by
  have heq := runScan_eq m files ⟨[], []⟩
  have hbus : (runScan m files ⟨[], []⟩).1.business = scanBusiness m files := by
    rw [heq]; simp
  have hnbus : (runScan m files ⟨[], []⟩).1.nonBusiness = scanNonBusiness m files := by
    rw [heq]; simp
  have hcr : (runScan m files ⟨[], []⟩).2 = scanCrash m files := by rw [heq]
  have invB : ∀ p ∈ scanBusiness m files,
      ∃ sm, jlookup p.2 "survey_metadata" = some sm ∧
        jmem "ru_ref" sm = .yes ∧ jmem "qid" sm = .no := by
    intro p hp
    obtain ⟨f, _, hc, _⟩ := mem_scanBusiness m files p hp
    obtain ⟨_, _, sm, hsm, hdisj⟩ := classified_inv m f _ _ hc
    rcases hdisj with ⟨hk, _⟩ | ⟨_, hq, hr⟩
    · exact absurd hk (by simp)
    · exact ⟨sm, hsm, hr, hq⟩
  have invN : ∀ p ∈ scanNonBusiness m files,
      ∃ sm, jlookup p.2 "survey_metadata" = some sm ∧ jmem "qid" sm = .yes := by
    intro p hp
    obtain ⟨f, _, hc, _⟩ := mem_scanNonBusiness m files p hp
    obtain ⟨_, _, sm, hsm, hdisj⟩ := classified_inv m f _ _ hc
    rcases hdisj with ⟨_, hq⟩ | ⟨hk, _⟩
    · exact ⟨sm, hsm, hq⟩
    · exact absurd hk (by simp)
  refine ⟨by rw [hbus]; exact invB, by rw [hnbus]; exact invN, ?_, ?_⟩
  · intro hnone f hf top hct hmark sm hsm
    rw [hcr] at hnone
    rw [hbus, hnbus]
    constructor
    · intro hq
      have hc : process_feedback_file m f = .classified .nonBusiness top := by
        unfold process_feedback_file
        simp [hmark, hct, hsm, hq]
      refine ⟨(classified_mem_scan m files f _ top hf hc hnone).2 rfl, ?_⟩
      intro hmem
      obtain ⟨sm', hsm', _, hq'⟩ := invB _ hmem
      rw [hsm] at hsm'
      obtain rfl := Option.some.inj hsm'
      rw [hq] at hq'
      exact absurd hq' (by simp)
    · intro hq hr
      have hc : process_feedback_file m f = .classified .business top := by
        unfold process_feedback_file
        simp [hmark, hct, hsm, hq, hr]
      refine ⟨(classified_mem_scan m files f _ top hf hc hnone).1 rfl, ?_⟩
      intro hmem
      obtain ⟨sm', hsm', hq'⟩ := invN _ hmem
      rw [hsm] at hsm'
      obtain rfl := Option.some.inj hsm'
      rw [hq] at hq'
      exact absurd hq' (by simp)
  · intro f hf hbad top
    rw [hbus, hnbus]
    have hinj := List.inj_on_of_nodup_map hnd
    have hne : ∀ key t, process_feedback_file m f ≠ .classified key t := by
      intro key t hcc
      rcases hbad with hb | hb | ⟨msg, hb⟩ <;> rw [hb] at hcc <;> exact absurd hcc (by simp)
    constructor
    · intro hmem
      obtain ⟨g, hg, hc, hfn⟩ := mem_scanBusiness m files _ hmem
      have : g = f := hinj hg hf hfn.symm
      rw [this] at hc
      exact hne _ _ hc
    · intro hmem
      obtain ⟨g, hg, hc, hfn⟩ := mem_scanNonBusiness m files _ hmem
      have : g = f := hinj hg hf hfn.symm
      rw [this] at hc
      exact hne _ _ hc

/-- C2 witness: on the demonstration folder, the both-keys record goes to
the non-business bucket (qid checked first) and the ru_ref-only record to
the business bucket. -/
theorem claim_C2_witness :
    ("both.json", topBoth) ∈ (runScan "Feedback" demoFiles ⟨[], []⟩).1.nonBusiness ∧
    ("ru.json", topRu) ∈ (runScan "Feedback" demoFiles ⟨[], []⟩).1.business := by
  have h := claim_C2_bucket_partition "Feedback" demoFiles (by decide)
  have hscan : (runScan "Feedback" demoFiles ⟨[], []⟩).2 = none := by rfl
  have hmemBoth : fileBoth ∈ demoFiles := by
    unfold demoFiles
    exact List.mem_cons_of_mem _ (List.mem_cons_of_mem _ (List.mem_cons_self ..))
  have hmemRu : fileRu ∈ demoFiles := by
    unfold demoFiles
    exact List.mem_cons_of_mem _ (List.mem_cons_self ..)
  have hboth := h.2.2.1 hscan fileBoth hmemBoth topBoth rfl rfl
    (.obj [("qid", .str "q9"), ("ru_ref", .str "r9")]) rfl
  have hru := h.2.2.1 hscan fileRu hmemRu topRu rfl rfl
    (.obj [("ru_ref", .str "r1")]) rfl
  exact ⟨(hboth.1 rfl).1, (hru.2 rfl rfl).1⟩

/-! ## Properties of the candidate loop -/

theorem resolveLoop_nil (top : JObj) (sm dat : JValue) (v : Option JValue) :
    resolveLoop top sm dat v [] = .ok (.fell v) := rfl

theorem resolveLoop_cons_empty (top : JObj) (sm dat : JValue)
    (v : Option JValue) (k : String) (ks : List String)
    (hk : k = "EMPTY_COLUMN") :
    resolveLoop top sm dat v (k :: ks) = .ok .earlyEmpty := by
  simp [resolveLoop, hk]

theorem resolveLoop_cons_error (top : JObj) (sm dat : JValue)
    (v : Option JValue) (k : String) (ks : List String) (e : ResolveError)
    (hk : k ≠ "EMPTY_COLUMN") (hl : lookupValue top sm dat k = .error e) :
    resolveLoop top sm dat v (k :: ks) = .error e := by
  simp [resolveLoop, hk, hl]

theorem resolveLoop_cons_none (top : JObj) (sm dat : JValue)
    (v : Option JValue) (k : String) (ks : List String)
    (hk : k ≠ "EMPTY_COLUMN") (hl : lookupValue top sm dat k = .ok none) :
    resolveLoop top sm dat v (k :: ks) = resolveLoop top sm dat none ks := by
  simp [resolveLoop, hk, hl]

theorem resolveLoop_cons_falsy (top : JObj) (sm dat : JValue)
    (v : Option JValue) (k : String) (ks : List String) (u : JValue)
    (hk : k ≠ "EMPTY_COLUMN") (hl : lookupValue top sm dat k = .ok (some u))
    (ht : truthy u = false) :
    resolveLoop top sm dat v (k :: ks) = resolveLoop top sm dat (some u) ks := by
  simp [resolveLoop, hk, hl, ht]

theorem resolveLoop_cons_break (top : JObj) (sm dat : JValue)
    (v : Option JValue) (k : String) (ks : List String) (u : JValue)
    (hk : k ≠ "EMPTY_COLUMN") (hf : k ≠ "feedback_text")
    (hl : lookupValue top sm dat k = .ok (some u)) (ht : truthy u = true) :
    resolveLoop top sm dat v (k :: ks) = .ok (.broke u) := by
  simp [resolveLoop, hk, hf, hl, ht]

theorem resolveLoop_cons_feedback_text (top : JObj) (sm dat : JValue)
    (v : Option JValue) (ks : List String) (s : String)
    (hl : lookupValue top sm dat "feedback_text" = .ok (some (.str s)))
    (ht : truthy (.str s) = true) :
    resolveLoop top sm dat v ("feedback_text" :: ks) =
      .ok (.broke (.str ("\x22" ++ sanitizeFeedbackText s ++ "\x22"))) := by
  simp [resolveLoop, hl, ht]

/-- If the loop falls through a first block of candidates with final
variable contents `w`, running it over the whole list continues into the
remaining candidates carrying `w`. -/
theorem resolveLoop_append_fell (top : JObj) (sm dat : JValue)
    (pre rest : List String) :
    ∀ v w, resolveLoop top sm dat v pre = .ok (.fell w) →
      resolveLoop top sm dat v (pre ++ rest) = resolveLoop top sm dat w rest := by
  induction pre with
  | nil =>
    intro v w h
    obtain rfl : v = w := by simpa [resolveLoop_nil] using h
    simp [List.nil_append]
  | cons k ks ih =>
    intro v w h
    rw [List.cons_append]
    by_cases hk : k = "EMPTY_COLUMN"
    · rw [resolveLoop_cons_empty top sm dat v k ks hk] at h
      exact absurd h (by simp)
    · cases hl : lookupValue top sm dat k with
      | error e =>
        rw [resolveLoop_cons_error top sm dat v k ks e hk hl] at h
        exact absurd h (by simp)
      | ok mv =>
        cases mv with
        | none =>
          rw [resolveLoop_cons_none top sm dat v k ks hk hl] at h
          rw [resolveLoop_cons_none top sm dat v k (ks ++ rest) hk hl]
          exact ih none w h
        | some u =>
          by_cases ht : truthy u = true
          · by_cases hf : k = "feedback_text"
            · subst hf
              cases u with
              | str t =>
                rw [resolveLoop_cons_feedback_text top sm dat v ks t hl ht] at h
                exact absurd h (by simp)
              | null => simp [truthy] at ht
              | num n =>
                have : resolveLoop top sm dat v ("feedback_text" :: ks) =
                    .error .attrError := by simp [resolveLoop, hl, ht]
                rw [this] at h
                exact absurd h (by simp)
              | bool b =>
                have : resolveLoop top sm dat v ("feedback_text" :: ks) =
                    .error .attrError := by simp [resolveLoop, hl, ht]
                rw [this] at h
                exact absurd h (by simp)
              | obj o =>
                have : resolveLoop top sm dat v ("feedback_text" :: ks) =
                    .error .attrError := by simp [resolveLoop, hl, ht]
                rw [this] at h
                exact absurd h (by simp)
            · rw [resolveLoop_cons_break top sm dat v k ks u hk hf hl ht] at h
              exact absurd h (by simp)
          · rw [Bool.not_eq_true] at ht
            rw [resolveLoop_cons_falsy top sm dat v k ks u hk hl ht] at h
            rw [resolveLoop_cons_falsy top sm dat v k (ks ++ rest) u hk hl ht]
            exact ih (some u) w h

/-- The loop variable can only fall out of the loop holding a falsy
value (a truthy one breaks). -/
theorem resolveLoop_fell_falsy (top : JObj) (sm dat : JValue)
    (keys : List String) :
    ∀ v w, optTruthy v = false →
      resolveLoop top sm dat v keys = .ok (.fell w) → optTruthy w = false := by
  induction keys with
  | nil =>
    intro v w hv h
    obtain rfl : v = w := by simpa [resolveLoop_nil] using h
    exact hv
  | cons k ks ih =>
    intro v w hv h
    by_cases hk : k = "EMPTY_COLUMN"
    · rw [resolveLoop_cons_empty top sm dat v k ks hk] at h
      exact absurd h (by simp)
    · cases hl : lookupValue top sm dat k with
      | error e =>
        rw [resolveLoop_cons_error top sm dat v k ks e hk hl] at h
        exact absurd h (by simp)
      | ok mv =>
        cases mv with
        | none =>
          rw [resolveLoop_cons_none top sm dat v k ks hk hl] at h
          exact ih none w rfl h
        | some u =>
          by_cases ht : truthy u = true
          · by_cases hf : k = "feedback_text"
            · subst hf
              cases u with
              | str t =>
                rw [resolveLoop_cons_feedback_text top sm dat v ks t hl ht] at h
                exact absurd h (by simp)
              | null => simp [truthy] at ht
              | num n =>
                have : resolveLoop top sm dat v ("feedback_text" :: ks) =
                    .error .attrError := by simp [resolveLoop, hl, ht]
                rw [this] at h
                exact absurd h (by simp)
              | bool b =>
                have : resolveLoop top sm dat v ("feedback_text" :: ks) =
                    .error .attrError := by simp [resolveLoop, hl, ht]
                rw [this] at h
                exact absurd h (by simp)
              | obj o =>
                have : resolveLoop top sm dat v ("feedback_text" :: ks) =
                    .error .attrError := by simp [resolveLoop, hl, ht]
                rw [this] at h
                exact absurd h (by simp)
            · rw [resolveLoop_cons_break top sm dat v k ks u hk hf hl ht] at h
              exact absurd h (by simp)
          · rw [Bool.not_eq_true] at ht
            rw [resolveLoop_cons_falsy top sm dat v k ks u hk hl ht] at h
            exact ih (some u) w (by simp [optTruthy, ht]) h

/-- `value or default or "No value provided"` depends only on the
default once the value is falsy. -/
theorem pyOrChain_falsy (v : Option JValue) (d : String)
    (hv : optTruthy v = false) :
    pyOrChain v d = if d ≠ "" then .str d else .str "No value provided" := by
  cases v with
  | none => rfl
  | some w =>
    have : truthy w = false := by simpa [optTruthy] using hv
    simp [pyOrChain, this]

/-- Post-loop outcome when the loop broke on a truthy value: that value is
returned unchanged. -/
theorem runLoopFinish_broke (top : JObj) (sm dat : JValue)
    (v : Option JValue) (keys : List String) (d : String) (w : JValue)
    (h : resolveLoop top sm dat v keys = .ok (.broke w))
    (ht : truthy w = true) :
    runLoopFinish top sm dat v keys d = .ok w := by
  unfold runLoopFinish
  rw [h]
  simp [afterLoop, finishValue, optTruthy, ht, pyOrChain]

/-- Post-loop outcome when the loop fell through: `KeyError` on an empty
default, else the default string. -/
theorem runLoopFinish_fell (top : JObj) (sm dat : JValue)
    (v : Option JValue) (keys : List String) (d : String) (w : Option JValue)
    (h : resolveLoop top sm dat v keys = .ok (.fell w))
    (hw : optTruthy w = false) :
    runLoopFinish top sm dat v keys d =
      if d = "" then
        .error (.keyError "Could not find value for field in feedback and no default value was specified.")
      else .ok (.str d) := by
  unfold runLoopFinish
  rw [h]
  simp only [afterLoop, finishValue, hw, Bool.not_false, Bool.true_and]
  by_cases hd : d = ""
  · simp [hd]
  · simp [hd, pyOrChain_falsy w d hw]

/-- `get_value_for_output_field_from_feedback` through `runLoopFinish`. -/
theorem getValue_eq_runLoopFinish (fb : JObj) (of : OutputField)
    (sm dat : JValue)
    (hsm : jlookup fb "survey_metadata" = some sm)
    (hdat : jlookup fb "data" = some dat) :
    get_value_for_output_field_from_feedback fb of =
      runLoopFinish fb sm dat none of.keys of.default_value := by
  unfold get_value_for_output_field_from_feedback
  rw [hsm]
  simp only
  rw [hdat]

/-- A wrapped-in-quotes string is never empty. -/
theorem quote_wrap_ne_empty (x : String) :
    ("\x22" ++ x ++ "\x22" : String) ≠ "" := by
  intro h
  have hdata := congrArg String.data h
  simp [String.data_append] at hdata

/-- A successful `jlookup` means the key test on the object succeeds. -/
theorem jlookup_any (o : JObj) (k : String) (v : JValue)
    (h : jlookup o k = some v) : (o.any fun p => p.1 = k) = true := by
  induction o with
  | nil => simp [jlookup] at h
  | cons p rest ih =>
    obtain ⟨k', v'⟩ := p
    unfold jlookup at h
    by_cases hp : k' = k
    · simp [hp]
    · rw [if_neg hp] at h
      simp [List.any_cons, ih h]

/-- A falsy loop variable does not influence the rest of the resolution:
its only uses are the final truthiness test and the `or`-chain, and both
treat all falsy contents alike. -/
theorem runLoopFinish_value_congr (top : JObj) (sm dat : JValue)
    (keys : List String) (d : String) (v1 v2 : Option JValue)
    (h1 : optTruthy v1 = false) (h2 : optTruthy v2 = false) :
    runLoopFinish top sm dat v1 keys d = runLoopFinish top sm dat v2 keys d := by
  cases keys with
  | nil =>
    unfold runLoopFinish
    rw [resolveLoop_nil, resolveLoop_nil]
    simp [afterLoop, finishValue, h1, h2, pyOrChain_falsy _ _ h1,
      pyOrChain_falsy _ _ h2]
  | cons k ks =>
    by_cases hk : k = "EMPTY_COLUMN"
    · unfold runLoopFinish
      rw [resolveLoop_cons_empty top sm dat v1 k ks hk,
        resolveLoop_cons_empty top sm dat v2 k ks hk]
    · cases hl : lookupValue top sm dat k with
      | error e =>
        unfold runLoopFinish
        rw [resolveLoop_cons_error top sm dat v1 k ks e hk hl,
          resolveLoop_cons_error top sm dat v2 k ks e hk hl]
      | ok mv =>
        cases mv with
        | none =>
          unfold runLoopFinish
          rw [resolveLoop_cons_none top sm dat v1 k ks hk hl,
            resolveLoop_cons_none top sm dat v2 k ks hk hl]
        | some u =>
          by_cases ht : truthy u = true
          · by_cases hf : k = "feedback_text"
            · subst hf
              unfold runLoopFinish
              cases u with
              | str t =>
                rw [resolveLoop_cons_feedback_text top sm dat v1 ks t hl ht,
                  resolveLoop_cons_feedback_text top sm dat v2 ks t hl ht]
              | null => simp [truthy] at ht
              | num n =>
                rw [show resolveLoop top sm dat v1 ("feedback_text" :: ks) =
                      .error .attrError by simp [resolveLoop, hl, ht],
                  show resolveLoop top sm dat v2 ("feedback_text" :: ks) =
                      .error .attrError by simp [resolveLoop, hl, ht]]
              | bool b =>
                rw [show resolveLoop top sm dat v1 ("feedback_text" :: ks) =
                      .error .attrError by simp [resolveLoop, hl, ht],
                  show resolveLoop top sm dat v2 ("feedback_text" :: ks) =
                      .error .attrError by simp [resolveLoop, hl, ht]]
              | obj o =>
                rw [show resolveLoop top sm dat v1 ("feedback_text" :: ks) =
                      .error .attrError by simp [resolveLoop, hl, ht],
                  show resolveLoop top sm dat v2 ("feedback_text" :: ks) =
                      .error .attrError by simp [resolveLoop, hl, ht]]
            · unfold runLoopFinish
              rw [resolveLoop_cons_break top sm dat v1 k ks u hk hf hl ht,
                resolveLoop_cons_break top sm dat v2 k ks u hk hf hl ht]
          · rw [Bool.not_eq_true] at ht
            unfold runLoopFinish
            rw [resolveLoop_cons_falsy top sm dat v1 k ks u hk hl ht,
              resolveLoop_cons_falsy top sm dat v2 k ks u hk hl ht]

/-- C8: whenever the candidate loop reaches the sentinel name
`EMPTY_COLUMN` (every earlier candidate fell through), resolution returns
the empty string at once — independent of the record's contents, of the
remaining candidates and of the configured default. -/
theorem claim_C8_empty_column (fb : JObj) (sm dat : JValue)
    (of : OutputField) (pre post : List String) (v : Option JValue)
    (hsm : jlookup fb "survey_metadata" = some sm)
    (hdat : jlookup fb "data" = some dat)
    (hkeys : of.keys = pre ++ "EMPTY_COLUMN" :: post)
    (hpre : resolveLoop fb sm dat none pre = .ok (.fell v)) :
    get_value_for_output_field_from_feedback fb of = .ok (.str "") := by
  rw [getValue_eq_runLoopFinish fb of sm dat hsm hdat]
  unfold runLoopFinish
  rw [hkeys,
    resolveLoop_append_fell fb sm dat pre ("EMPTY_COLUMN" :: post) none v hpre,
    resolveLoop_cons_empty fb sm dat v "EMPTY_COLUMN" post rfl]
  rfl

/-- C8 witness: with candidates `["missing_key", "EMPTY_COLUMN",
"ru_ref"]` and a non-empty default, a record that does carry `ru_ref`
still resolves to the empty string. -/
theorem claim_C8_witness :
    get_value_for_output_field_from_feedback fbRuOnly
      ⟨.multi ["missing_key", "EMPTY_COLUMN", "ru_ref"], "Unknown"⟩ =
      .ok (.str "") :=
  claim_C8_empty_column fbRuOnly (.obj [("ru_ref", .str "12345")])
    (.obj []) _ ["missing_key"] ["ru_ref"] none rfl rfl rfl rfl

/-- C7: when the winning candidate is exactly `feedback_text` with a
truthy string value, resolution returns the value with newlines and
carriage returns turned into spaces, double quotes doubled, ends trimmed,
and the whole wrapped in double quotes (first conjunct); any other
winning candidate's truthy value is returned entirely unchanged (second
conjunct). -/
theorem claim_C7_feedback_text_sanitization :
    (∀ (fb : JObj) (sm dat : JValue) (of : OutputField)
        (pre post : List String) (v : Option JValue) (s : String),
      jlookup fb "survey_metadata" = some sm →
      jlookup fb "data" = some dat →
      OutputField.keys of = pre ++ "feedback_text" :: post →
      resolveLoop fb sm dat none pre = .ok (.fell v) →
      lookupValue fb sm dat "feedback_text" = .ok (some (.str s)) →
      s ≠ "" →
      get_value_for_output_field_from_feedback fb of =
        .ok (.str ("\x22" ++ sanitizeFeedbackText s ++ "\x22"))) ∧
    (∀ (fb : JObj) (sm dat : JValue) (of : OutputField)
        (pre post : List String) (v : Option JValue) (k : String) (w : JValue),
      jlookup fb "survey_metadata" = some sm →
      jlookup fb "data" = some dat →
      OutputField.keys of = pre ++ k :: post →
      k ≠ "feedback_text" → k ≠ "EMPTY_COLUMN" →
      resolveLoop fb sm dat none pre = .ok (.fell v) →
      lookupValue fb sm dat k = .ok (some w) →
      truthy w = true →
      get_value_for_output_field_from_feedback fb of = .ok w) := by
  constructor
  · intro fb sm dat of pre post v s hsm hdat hkeys hpre hval hs
    rw [getValue_eq_runLoopFinish fb of sm dat hsm hdat]
    have ht : truthy (JValue.str s) = true := by simp [truthy, hs]
    have hloop : resolveLoop fb sm dat none (OutputField.keys of) =
        .ok (.broke (.str ("\x22" ++ sanitizeFeedbackText s ++ "\x22"))) := by
      rw [hkeys,
        resolveLoop_append_fell fb sm dat pre ("feedback_text" :: post) none v hpre,
        resolveLoop_cons_feedback_text fb sm dat v post s hval ht]
    exact runLoopFinish_broke fb sm dat none (OutputField.keys of)
      (OutputField.default_value of)
      (.str ("\x22" ++ sanitizeFeedbackText s ++ "\x22")) hloop
      (by simp [truthy, quote_wrap_ne_empty])
  · intro fb sm dat of pre post v k w hsm hdat hkeys hnf hne hpre hval ht
    rw [getValue_eq_runLoopFinish fb of sm dat hsm hdat]
    have hloop : resolveLoop fb sm dat none (OutputField.keys of) =
        .ok (.broke w) := by
      rw [hkeys,
        resolveLoop_append_fell fb sm dat pre (k :: post) none v hpre,
        resolveLoop_cons_break fb sm dat v k post w hne hnf hval ht]
    exact runLoopFinish_broke fb sm dat none (OutputField.keys of)
      (OutputField.default_value of) w hloop ht

/-- C7 witness: `feedback_text` comes back sanitized and quote-wrapped,
while `other_field` keeps its embedded quote untouched. -/
theorem claim_C7_witness :
    get_value_for_output_field_from_feedback fbFeedback
      ⟨.single "feedback_text", ""⟩ =
      .ok (.str ("\x22" ++
        sanitizeFeedbackText "  he said \x22hi\x22\nbye " ++ "\x22")) ∧
    get_value_for_output_field_from_feedback fbFeedback
      ⟨.single "other_field", ""⟩ = .ok (.str "plain\x22txt") :=
  ⟨claim_C7_feedback_text_sanitization.1 fbFeedback
      (.obj [("qid", .str "q")])
      (.obj [("feedback_text", .str "  he said \x22hi\x22\nbye "),
             ("other_field", .str "plain\x22txt")])
      ⟨.single "feedback_text", ""⟩ [] [] none
      "  he said \x22hi\x22\nbye " rfl rfl rfl rfl rfl (by decide),
   claim_C7_feedback_text_sanitization.2 fbFeedback
      (.obj [("qid", .str "q")])
      (.obj [("feedback_text", .str "  he said \x22hi\x22\nbye "),
             ("other_field", .str "plain\x22txt")])
      ⟨.single "other_field", ""⟩ [] [] none
      "other_field" (.str "plain\x22txt") rfl rfl rfl (by decide) (by decide)
      rfl rfl (by decide)⟩

/-- C6 counterexample: with a default configured as the empty string and
no resolvable candidate (`fbRuOnly` has no `period_id` anywhere),
resolution raises the missing-field `KeyError`; in particular the result
is an error, not the placeholder string "No value provided". -/
theorem claim_C6_counterexample :
    get_value_for_output_field_from_feedback fbRuOnly
      ⟨.single "period_id", ""⟩ =
      .error (.keyError "Could not find value for field in feedback and no default value was specified.") ∧
    (match get_value_for_output_field_from_feedback fbRuOnly
        ⟨.single "period_id", ""⟩ with
     | .ok (.str s) => s == "No value provided"
     | _ => false) = false :=
  ⟨rfl, rfl⟩

/-- C6 amended: an empty-string default is indistinguishable from no
default (`default_value` defaults to `""`), so when no candidate yields a
truthy value resolution raises the missing-field `KeyError`; the
`"No value provided"` branch of line 141 is unreachable. -/
theorem claim_C6_empty_default_raises (fb : JObj) (sm dat : JValue)
    (of : OutputField) (v : Option JValue)
    (hsm : jlookup fb "survey_metadata" = some sm)
    (hdat : jlookup fb "data" = some dat)
    (hd : OutputField.default_value of = "")
    (hloop : resolveLoop fb sm dat none (OutputField.keys of) = .ok (.fell v)) :
    get_value_for_output_field_from_feedback fb of =
      .error (.keyError "Could not find value for field in feedback and no default value was specified.") := by
  rw [getValue_eq_runLoopFinish fb of sm dat hsm hdat]
  have hfal := resolveLoop_fell_falsy fb sm dat (OutputField.keys of) none v rfl hloop
  rw [runLoopFinish_fell fb sm dat none (OutputField.keys of)
    (OutputField.default_value of) v hloop hfal, hd]
  simp

/-- C6 witness for the amended statement. -/
theorem claim_C6_witness :
    get_value_for_output_field_from_feedback fbRuOnly
      ⟨.multi ["period_id", "form_type"], ""⟩ =
      .error (.keyError "Could not find value for field in feedback and no default value was specified.") :=
  claim_C6_empty_default_raises fbRuOnly (.obj [("ru_ref", .str "12345")])
    (.obj []) ⟨.multi ["period_id", "form_type"], ""⟩ none rfl rfl rfl rfl

/-- C10: when a candidate name sits in `survey_metadata` with a falsy
value, resolution takes that falsy value from `survey_metadata` (never
consulting `data` or the record's top level for that name, whatever truthy
values they hold there), fails the truthiness test, and moves on — the
whole resolution behaves exactly as if the candidate were dropped. -/
theorem claim_C10_falsy_metadata_shadows (fb : JObj) (o : JObj)
    (dat : JValue) (k : String) (v : JValue) (rest : List String) (d : String)
    (hsm : jlookup fb "survey_metadata" = some (.obj o))
    (hdat : jlookup fb "data" = some dat)
    (hk : k ≠ "EMPTY_COLUMN")
    (hv : jlookup o k = some v) (hfalsy : truthy v = false) :
    get_value_for_output_field_from_feedback fb ⟨.multi (k :: rest), d⟩ =
      get_value_for_output_field_from_feedback fb ⟨.multi rest, d⟩ := by
  rw [getValue_eq_runLoopFinish fb ⟨.multi (k :: rest), d⟩ (.obj o) dat hsm hdat,
    getValue_eq_runLoopFinish fb ⟨.multi rest, d⟩ (.obj o) dat hsm hdat]
  have hl : lookupValue fb (.obj o) dat k = .ok (some v) := by
    simp [lookupValue, jmem, jlookup_any o k v hv, hv]
  show runLoopFinish fb (.obj o) dat none (k :: rest) d =
    runLoopFinish fb (.obj o) dat none rest d
  unfold runLoopFinish
  rw [resolveLoop_cons_falsy fb (.obj o) dat none k rest v hk hl hfalsy]
  exact runLoopFinish_value_congr fb (.obj o) dat rest d (some v) none
    (by simp [optTruthy, hfalsy]) rfl

/-- C10 witness: the truthy `data["form_type"] = "H"` is never used; the
resolution of `["form_type", "ru_ref"]` equals that of `["ru_ref"]`. -/
theorem claim_C10_witness :
    get_value_for_output_field_from_feedback fbShadow
      ⟨.multi ["form_type", "ru_ref"], ""⟩ =
      get_value_for_output_field_from_feedback fbShadow
        ⟨.multi ["ru_ref"], ""⟩ :=
  claim_C10_falsy_metadata_shadows fbShadow
    [("form_type", .str ""), ("ru_ref", .str "R")]
    (.obj [("form_type", .str "H")]) "form_type" (.str "") ["ru_ref"] ""
    rfl rfl (by decide) rfl (by decide)

/-! ## Properties of the report writer -/

theorem rowWritten_of_skipped (fields : List OutputField) (fmt : String)
    (fb : JObj) (fn : String)
    (h : write_to_csv fields fmt fb fn = .skipped) :
    rowWritten fields fb = false := by
  unfold write_to_csv at h
  unfold rowWritten
  split at h
  · rename_i hres
    rw [hres]
  · exact absurd h (by simp)
  · split at h <;> exact absurd h (by simp)

theorem rowWritten_of_written (fields : List OutputField) (fmt : String)
    (fb : JObj) (fn : String) (line : String)
    (h : write_to_csv fields fmt fb fn = .written line) :
    rowWritten fields fb = true := by
  unfold write_to_csv at h
  unfold rowWritten
  split at h
  · exact absurd h (by simp)
  · exact absurd h (by simp)
  · rename_i vals hres
    rw [hres]
    show (allStrs vals).isSome = true
    split at h
    · exact absurd h (by simp)
    · rename_i strs hstrs
      rw [hstrs]
      rfl

/-- The rows `writeLoop` writes are exactly the sorted records whose
fields all resolve, in their incoming order. -/
theorem writeLoop_filter (fields : List OutputField) (fmt : String) :
    ∀ (l : List (String × JObj)) (w : List ((String × JObj) × String)),
      writeLoop fields fmt l = some w →
      w.map (fun p => p.1) = l.filter fun r => rowWritten fields r.2 := by
  intro l
  induction l with
  | nil =>
    intro w h
    obtain rfl : ([] : List ((String × JObj) × String)) = w := by
      simpa [writeLoop] using h
    simp
  | cons p rest ih =>
    intro w h
    obtain ⟨fn, fb⟩ := p
    unfold writeLoop at h
    split at h
    · exact absurd h (by simp)
    · rename_i hw
      rw [List.filter_cons]
      simp only [rowWritten_of_skipped fields fmt fb fn hw, Bool.false_eq_true,
        if_false]
      exact ih w h
    · rename_i line hw
      cases hwl : writeLoop fields fmt rest with
      | none => rw [hwl] at h; exact absurd h (by simp)
      | some w' =>
        rw [hwl] at h
        obtain rfl : ((fn, fb), line) :: w' = w := by simpa using h
        rw [List.filter_cons]
        simp only [rowWritten_of_written fields fmt fb fn line hw, if_true]
        simp [ih w' hwl]

/-- Inversion of `processCategory` on a successful run. -/
theorem processCategory_inv (cfg : Config) (st : String)
    (records : List (String × JObj)) (rep : CategoryReport)
    (h : processCategory cfg st records = some rep) :
    records ≠ [] ∧
    (records.all fun r => (parseTs r.2).isSome) = true ∧
    ∃ first dt written,
      (sortRecords records).head? = some first ∧
      parseTs first.2 = some dt ∧
      writeLoop cfg.output_fields (DateTime.fmtHuman dt)
        (sortRecords records) = some written ∧
      rep = ⟨outputFilename cfg.aggMarker st dt, sortRecords records,
             written.map fun p => p.1, written.map fun p => p.2,
             written.length⟩ := by
  cases records with
  | nil => simp [processCategory] at h
  | cons r0 rs =>
    unfold processCategory at h
    split at h
    · exact absurd h (by simp)
    · rename_i r0' rs' heq
      injection heq with h1 h2
      subst h1
      subst h2
      split at h
      · rename_i hall
        split at h
        · exact absurd h (by simp)
        · rename_i first hfirst
          split at h
          · exact absurd h (by simp)
          · rename_i dt hdt
            split at h
            · exact absurd h (by simp)
            · rename_i written hw
              refine ⟨by simp, hall, first, dt, written, hfirst, hdt, hw, ?_⟩
              exact (Option.some.inj h).symm
      · exact absurd h (by simp)

/-- C3: on any successful category run, the records are sorted ascending
by parsed `submitted_at` before writing, the rows actually written form a
sublist of that sorted list (skips drop rows without reordering the
rest), and therefore the written rows appear in non-decreasing timestamp
order. -/
theorem claim_C3_rows_in_timestamp_order (cfg : Config) (st : String)
    (records : List (String × JObj)) (rep : CategoryReport)
    (h : processCategory cfg st records = some rep) :
    rep.sortedRecords.Pairwise tsLe ∧
    rep.writtenRecords.Sublist rep.sortedRecords ∧
    rep.writtenRecords.Pairwise tsLe ∧
    rep.lines.length = rep.writtenRecords.length := by
  obtain ⟨-, -, first, dt, written, -, -, hw, hrep⟩ :=
    processCategory_inv cfg st records rep h
  subst hrep
  have hsorted : (sortRecords records).Pairwise tsLe :=
    List.sorted_insertionSort tsLe records
  have hfilter := writeLoop_filter cfg.output_fields (DateTime.fmtHuman dt)
    (sortRecords records) written hw
  have hsub : (written.map fun p => p.1).Sublist (sortRecords records) := by
    rw [hfilter]
    exact List.filter_sublist (sortRecords records)
  exact ⟨hsorted, hsub, hsorted.sublist hsub, by simp⟩

/-- C3 witness: two writable records arriving in reverse order come out
sorted and fully written. -/
theorem claim_C3_witness :
    processCategory cfgDemo "business" [rLateRec, rMidRec] = some repC3 ∧
    repC3.sortedRecords.Pairwise tsLe ∧
    repC3.writtenRecords.Sublist repC3.sortedRecords ∧
    repC3.writtenRecords.Pairwise tsLe ∧
    repC3.lines.length = repC3.writtenRecords.length := by
  obtain ⟨h1, h2, h3, h4⟩ :=
    claim_C3_rows_in_timestamp_order cfgDemo "business" [rLateRec, rMidRec]
      repC3 rfl
  exact ⟨rfl, h1, h2, h3, h4⟩

/-- C4 counterexample: in the demonstration bucket the earliest record's
row is skipped (no `period_id`), so the report's only row carries the
`2024-01-05` timestamp while the filename's date component is
`2024-01-01` — the filename date does NOT equal the earliest submission
date among the rows of the report, contrary to the claim. -/
theorem claim_C4_counterexample :
    processCategory cfgDemo "business" [rLateRec, rEarlyRec] = some repC5 ∧
    repC5.writtenRecords = [rLateRec] ∧
    parseTs rLateRec.2 = some ⟨2024, 1, 5, 10, 0, 0⟩ ∧
    DateTime.fmtYmd ⟨2024, 1, 5, 10, 0, 0⟩ = "2024-01-05" ∧
    repC5.output_filename = "- Feedback-Business-Surveys-2024-01-01.csv" ∧
    (repC5.output_filename == "- Feedback-Business-Surveys-2024-01-05.csv") = false :=
  ⟨rfl, rfl, rfl, rfl, rfl, rfl⟩

/-- C4 amended: the output filename is exactly the leading `"- "`, the
configured aggregated-file marker, the title-cased category name, the
literal `Surveys` and a `YYYY-MM-DD` date joined with hyphens plus
`.csv`; the date is the submission date of the earliest record among ALL
records of the category (rows attempted), which, when the earliest
record's row is skipped, may precede every row actually written. -/
theorem claim_C4_filename_from_earliest_attempted (cfg : Config)
    (st : String) (records : List (String × JObj)) (rep : CategoryReport)
    (h : processCategory cfg st records = some rep) :
    ∃ r₀ ∈ records, (∀ r ∈ records, tsKey r₀ ≤ tsKey r) ∧
      ∃ dt, parseTs r₀.2 = some dt ∧
        rep.output_filename =
          "- " ++ cfg.aggMarker ++ "-" ++ titleCase st ++ "-Surveys-" ++
            DateTime.fmtYmd dt ++ ".csv" := by
  obtain ⟨-, -, first, dt, written, hfirst, hdt, -, hrep⟩ :=
    processCategory_inv cfg st records rep h
  subst hrep
  have hperm := List.perm_insertionSort tsLe records
  have hmemSorted : first ∈ sortRecords records := List.mem_of_mem_head? hfirst
  refine ⟨first, hperm.subset hmemSorted, ?_, dt, hdt, rfl⟩
  intro r hr
  have hrs : r ∈ sortRecords records := hperm.mem_iff.mpr hr
  cases hsort : sortRecords records with
  | nil => rw [hsort] at hmemSorted; simp at hmemSorted
  | cons a tail =>
    have hsortp : (a :: tail).Pairwise tsLe := by
      rw [← hsort]
      exact List.sorted_insertionSort tsLe records
    rw [hsort] at hfirst
    obtain rfl : a = first := by simpa using hfirst
    rw [hsort] at hrs
    rcases List.mem_cons.1 hrs with rfl | htail
    · exact Nat.le_refl _
    · exact (List.pairwise_cons.1 hsortp).1 r htail

/-- C4 witness (for the amended statement): the demonstration report's
filename carries the `2024-01-01` date of the earliest attempted record
`rEarlyRec`, in the amended format. -/
theorem claim_C4_witness :
    repC5.output_filename =
      "- " ++ cfgDemo.aggMarker ++ "-" ++ titleCase "business" ++
        "-Surveys-" ++ DateTime.fmtYmd ⟨2024, 1, 1, 9, 0, 0⟩ ++ ".csv" := by
  obtain ⟨r₀, hmem, hmin, dt, hdt, hname⟩ :=
    claim_C4_filename_from_earliest_attempted cfgDemo "business"
      [rLateRec, rEarlyRec] repC5 rfl
  rcases List.mem_cons.1 hmem with rfl | hmem2
  · have hle := hmin rEarlyRec (by simp)
    exact absurd hle (by decide)
  · rcases List.mem_cons.1 hmem2 with rfl | h3
    · have h0 : parseTs rEarlyRec.2 = some ⟨2024, 1, 1, 9, 0, 0⟩ := rfl
      rw [h0] at hdt
      obtain rfl : dt = ⟨2024, 1, 1, 9, 0, 0⟩ := (Option.some.inj hdt).symm
      exact hname
    · simp at h3

/-- C5: on any successful category run in which some record's field
resolution raises the missing-field `KeyError`, exactly the failing rows
are omitted (the written rows are the resolvable sorted records, in
order), the remaining rows are still processed, and the success count is
strictly below the number of rows attempted. -/
theorem claim_C5_missing_field_drops_row (cfg : Config) (st : String)
    (records : List (String × JObj)) (rep : CategoryReport)
    (h : processCategory cfg st records = some rep)
    (hfail : ∃ r ∈ records, ∃ msg,
      resolveFields cfg.output_fields r.2 = .error (.keyError msg)) :
    rep.writtenRecords =
      rep.sortedRecords.filter (fun r => rowWritten cfg.output_fields r.2) ∧
    rep.passed = rep.writtenRecords.length ∧
    rep.sortedRecords.length = records.length ∧
    rep.passed < rep.sortedRecords.length := by
  obtain ⟨-, -, first, dt, written, -, -, hw, hrep⟩ :=
    processCategory_inv cfg st records rep h
  subst hrep
  have hfilter := writeLoop_filter cfg.output_fields (DateTime.fmtHuman dt)
    (sortRecords records) written hw
  have hperm := List.perm_insertionSort tsLe records
  refine ⟨hfilter, by simp, hperm.length_eq, ?_⟩
  obtain ⟨r, hr, msg, hmsg⟩ := hfail
  have hrs : r ∈ sortRecords records := hperm.mem_iff.mpr hr
  have hnw : rowWritten cfg.output_fields r.2 = false := by
    unfold rowWritten
    rw [hmsg]
  have hlt : ((sortRecords records).filter
      (fun r => rowWritten cfg.output_fields r.2)).length <
      (sortRecords records).length :=
    List.length_filter_lt_length_iff_exists.mpr ⟨r, hrs, by simp [hnw]⟩
  show written.length < (sortRecords records).length
  have hlen : written.length = ((sortRecords records).filter
      (fun r => rowWritten cfg.output_fields r.2)).length := by
    rw [← hfilter]
    simp
  rw [hlen]
  exact hlt

/-- C5 witness: with the earliest record unresolvable, one of the two
rows is dropped and the success count is 1 of 2. -/
theorem claim_C5_witness :
    processCategory cfgDemo "business" [rLateRec, rEarlyRec] = some repC5 ∧
    repC5.writtenRecords =
      repC5.sortedRecords.filter (fun r => rowWritten cfgDemo.output_fields r.2) ∧
    repC5.passed = repC5.writtenRecords.length ∧
    repC5.sortedRecords.length = 2 ∧
    repC5.passed < repC5.sortedRecords.length := by
  obtain ⟨h1, h2, h3, h4⟩ :=
    claim_C5_missing_field_drops_row cfgDemo "business" [rLateRec, rEarlyRec]
      repC5 rfl
      ⟨rEarlyRec, by simp,
       "Could not find value for field in feedback and no default value was specified.", rfl⟩
  exact ⟨rfl, h1, h2, h3, h4⟩
